import Mathlib

/-!
Verification of the QuizFlow quiz-generation subsystem: a shallow embedding of
the quiz orchestration service (`apps/api/src/services/quiz.service.ts`), the
OpenAI question generator and file service (`openai.service.ts`,
`file.service.ts`), the plan-limits table (`config/constants.ts`), and the
dashboard's client-side duplicate check (`apps/web/src/app/dashboard/page.tsx`),
together with theorems settling the specification's claims about them.

JavaScript strings are modelled as Lean `String`s, with `trim`, `toLowerCase`
and the sanitizing `replace` implemented over the underlying character list so
that they reduce inside the kernel.  JavaScript `number` arguments are modelled
as `Int` (the code only ever compares and clamps integral counts; `NaN` does
not arise on the modelled paths except as a caller-supplied question count,
where it behaves like the other falsy value `0`).  Thrown exceptions are
modelled with `Except`; the distinction between `AppError`, a raw `TypeError`
(reading a property of `undefined`) and the spec's `PackagingError` is kept in
the error type.  Database access through Prisma is modelled by explicit record
lists threaded through each service function, and external effects (OpenAI
calls, file unlinks, QTI package builds) are recorded in an event trace
returned alongside the result.
-/

/-! ### JavaScript string primitives -/

/-- `String.prototype.trim`: drop whitespace from both ends (character-list
implementation so that the kernel can evaluate it). -/
def trimCharList (l : List Char) : List Char :=
  ((l.dropWhile Char.isWhitespace).reverse.dropWhile Char.isWhitespace).reverse

/-- JS `s.trim()`. -/
def jsTrim (s : String) : String := ⟨trimCharList s.data⟩

/-- JS `s.toLowerCase()` (ASCII range, which is all the modelled code relies on). -/
def jsToLower (s : String) : String := ⟨s.data.map Char.toLower⟩

/-- JS `s || d` for a possibly-absent string: the default is used when the
value is `undefined` or the empty string (the two falsy cases). -/
def jsOr (s : Option String) (d : String) : String :=
  match s with
  | some v => if v = "" then d else v
  | none => d

/-- `title.replace(/[^a-z0-9]/gi, '_').toLowerCase()` from
`quiz.service.ts` lines 71 and 219: every character that is not an ASCII
letter or digit becomes `_`, then the result is lowercased. -/
def sanitizeFilename (s : String) : String :=
  jsToLower ⟨s.data.map (fun c => if c.isAlphanum then c else '_')⟩

/-! ### Data model -/

/-- A validated quiz question (`QuizQuestion` in `@quizflow/types`). -/
structure QuizQuestion where
  question : String
  options : List String
  correctAnswer : String
  explanation : Option String
deriving Repr, DecidableEq

/-- One entry of the JSON object parsed from an LLM response, before
validation: every field may be absent. -/
structure RawQuestion where
  question : Option String
  options : Option (List String)
  correctAnswer : Option String
  explanation : Option String
deriving Repr, DecidableEq

/-- A plan-limits row (`PLAN_LIMITS_BY_NAME` values in `config/constants.ts`).
`uploadsPerWeek = none` models the JS `Infinity` of the PRO row. -/
structure PlanLimits where
  uploadsPerWeek : Option Nat
  questionsPerQuiz : Int
  hasWatermark : Bool
deriving Repr, DecidableEq

/-- `PLAN_LIMITS_BY_NAME` from `config/constants.ts` lines 88-99, as a lookup:
indexing a JS object with an unknown key yields `undefined`, modelled by
`none`. -/
def PLAN_LIMITS_BY_NAME (plan : String) : Option PlanLimits :=
  if plan = "FREE" then
    some { uploadsPerWeek := some 1, questionsPerQuiz := 5, hasWatermark := true }
  else if plan = "PRO" then
    some { uploadsPerWeek := none, questionsPerQuiz := 30, hasWatermark := false }
  else none

/-- Errors thrown on the modelled paths: `AppError(status, message)` from
`middleware/errorHandler.ts`, a raw `TypeError` (property access on
`undefined`), the spec's `PackagingError`, and a generic rethrown `Error`. -/
inductive Err where
  | appError (status : Nat) (message : String)
  | typeError (message : String)
  | packagingError (message : String)
  | genericError (message : String)
deriving Repr, DecidableEq

/-- Upload status enum from the Prisma schema. -/
inductive UploadStatus where
  | PROCESSING
  | COMPLETED
  | FAILED
deriving Repr, DecidableEq

/-- A user record (the fields the modelled services read). -/
structure UserRec where
  id : String
  plan : String
deriving Repr, DecidableEq

/-- A `fileUpload` record. -/
structure FileUploadRec where
  id : String
  userId : String
  fileName : String
  originalName : String
  fileType : String
  fileSize : Nat
  filePath : String
  status : UploadStatus
  extractedText : Option String
  error : Option String
deriving Repr, DecidableEq

/-- A `quiz` record. -/
structure QuizRec where
  id : String
  userId : String
  fileUploadId : String
  title : String
  questions : List QuizQuestion
  questionCount : Nat
  qtiFilePath : String
  qtiFileUrl : String
  plan : String
  hasWatermark : Bool
deriving Repr, DecidableEq

/-- A usage record (`recordUsage` in `file.service.ts`). -/
structure UsageRec where
  userId : String
  action : String
  plan : String
deriving Repr, DecidableEq

/-- The persistence store threaded through the services. -/
structure DB where
  users : List UserRec
  fileUploads : List FileUploadRec
  quizzes : List QuizRec
  usage : List UsageRec
deriving Repr, DecidableEq

/-- External effects performed by a service call, in order: an OpenAI bulk
generation call (carrying the requested question count), an OpenAI
single-question call (carrying the avoid-list of existing question texts and
the validated outcome, `none` when the call failed validation or threw), a
best-effort file unlink, and a QTI package build request. -/
inductive Event where
  | llmBulk (count : Int)
  | llmSingle (avoid : List String) (outcome : Option QuizQuestion)
  | unlink (path : String)
  | buildPackage (title : String) (questions : List QuizQuestion)
      (hasWatermark : Bool) (filename : String)
deriving Repr, DecidableEq

/-- The OpenAI collaborator, as the data the service extracts from it:
`bulkContent` is the parsed `questions` array of the bulk completion (`none`
when the call throws, returns no content, or returns JSON without a
`questions` array), and `single i` is the parsed JSON object of the i-th
single-question completion issued by the caller (`none` when that call throws
or returns no content). -/
structure LLM where
  bulkContent : Option (List RawQuestion)
  single : Nat → Option RawQuestion

/-! ### OpenAI service (`openai.service.ts`, current version at part_008
lines 193-464) -/

/-- Per-entry validation inside `generateQuizQuestions` (lines 279-302):
reject when `question`, `options` or `correctAnswer` is missing or (for the
strings) empty, or when there are not exactly 4 options; otherwise trim all
text fields.  Note that membership of `correctAnswer` in `options` is NOT
checked. -/
def validateQuestionEntry (i : Nat) (q : RawQuestion) : Except Err QuizQuestion :=
  match q.question, q.options, q.correctAnswer with
  | some qt, some opts, some ca =>
    if qt = "" ∨ ca = "" then
      Except.error (Err.appError 500 s!"Invalid question format at index {i}")
    else if opts.length ≠ 4 then
      Except.error (Err.appError 500 s!"Question {i} must have exactly 4 options")
    else
      Except.ok
        { question := jsTrim qt
          options := opts.map jsTrim
          correctAnswer := jsTrim ca
          explanation := q.explanation.map jsTrim }
  | _, _, _ =>
    Except.error (Err.appError 500 s!"Invalid question format at index {i}")

/-- `parsedResponse.questions.map(...)` with a throwing callback: the first
invalid entry aborts the whole validation. -/
def validateQuestionsFrom (i : Nat) :
    List RawQuestion → Except Err (List QuizQuestion)
  | [] => Except.ok []
  | q :: qs =>
    match validateQuestionEntry i q with
    | Except.error e => Except.error e
    | Except.ok v =>
      match validateQuestionsFrom (i + 1) qs with
      | Except.error e => Except.error e
      | Except.ok vs => Except.ok (v :: vs)

/-- Validation of the whole parsed bulk response. -/
def validateQuestions (raws : List RawQuestion) : Except Err (List QuizQuestion) :=
  validateQuestionsFrom 0 raws

/-- `generateSingleQuestion` (lines 390-464): any thrown error or shape
failure becomes `AppError(500, 'Failed to generate question')`; a valid
response is returned as-is (untrimmed).  The shape check requires a present
non-empty `question` and `correctAnswer` and exactly 4 options. -/
def validateSingle (r : Option RawQuestion) : Except Err QuizQuestion :=
  match r with
  | none => Except.error (Err.appError 500 "Failed to generate question")
  | some q =>
    match q.question, q.options, q.correctAnswer with
    | some qt, some opts, some ca =>
      if qt = "" ∨ opts.length ≠ 4 ∨ ca = "" then
        Except.error (Err.appError 500 "Failed to generate question")
      else
        Except.ok
          { question := qt, options := opts, correctAnswer := ca
            explanation := q.explanation }
    | _, _, _ => Except.error (Err.appError 500 "Failed to generate question")

/-- The shortfall backfill loop of `generateQuizQuestions` (lines 321-333):
one `generateSingleQuestion` call per missing question, each passed
`[...existingQuestions, ...additionalQuestions.map(q => q.question)]`; a
failed call is caught and the loop continues.  Returns the accepted
additional questions and the event per call. -/
def backfillLoop (llm : LLM) (existing0 : List String) :
    Nat → Nat → List QuizQuestion → List QuizQuestion × List Event
  | _, 0, additional => (additional, [])
  | i, rem + 1, additional =>
    let avoid := existing0 ++ additional.map (fun q => q.question)
    match validateSingle (llm.single i) with
    | Except.ok q =>
      let r := backfillLoop llm existing0 (i + 1) rem (additional ++ [q])
      (r.1, Event.llmSingle avoid (some q) :: r.2)
    | Except.error _ =>
      let r := backfillLoop llm existing0 (i + 1) rem additional
      (r.1, Event.llmSingle avoid none :: r.2)

/-- The shortfall error message of `generateQuizQuestions` lines 339-343. -/
def shortfallMsg (a : Nat) (requested : Int) : String :=
  s!"Could only generate {a} out of {requested} questions." ++
  " Document may be too short or lacks sufficient content."

/-- `generateQuizQuestions` (lines 193-385): reject counts outside [1, 30]
before any OpenAI call; otherwise call OpenAI, parse and validate; on a
shortfall run the backfill loop, and fail naming achieved vs requested when
still short; finally trim any excess. -/
def generateQuizQuestions (llm : LLM) (extractedText : String)
    (questionCount : Int) (title : String) :
    Except Err (List QuizQuestion) × List Event :=
  if questionCount < 1 then
    (Except.error (Err.appError 400 "Question count must be at least 1"), [])
  else if questionCount > 30 then
    (Except.error (Err.appError 400
      "Question count cannot exceed 30 for optimal quality and performance"), [])
  else
    match llm.bulkContent with
    | none =>
      (Except.error (Err.appError 500 "Invalid response format from OpenAI"),
       [Event.llmBulk questionCount])
    | some raws =>
      match validateQuestions raws with
      | Except.error e => (Except.error e, [Event.llmBulk questionCount])
      | Except.ok validated =>
        let n := questionCount.toNat
        if validated.length < n then
          let bf := backfillLoop llm (validated.map (fun q => q.question)) 0
            (n - validated.length) []
          let finalQuestions := validated ++ bf.1
          let events := Event.llmBulk questionCount :: bf.2
          if finalQuestions.length < n then
            (Except.error (Err.appError 500
              (shortfallMsg finalQuestions.length questionCount)), events)
          else
            (Except.ok (if n < finalQuestions.length then finalQuestions.take n
              else finalQuestions), events)
        else
          (Except.ok (if n < validated.length then validated.take n else validated),
           [Event.llmBulk questionCount])

/-! ### QTI package builder -/

/-- The request assembled by the orchestration service for each package
build. -/
structure QuizPackageRequest where
  title : String
  questions : List QuizQuestion
  hasWatermark : Bool
  filename : String
deriving Repr, DecidableEq

/-- Modelled from the spec: the QTI Package Builder (`qti.service.ts`,
function `generateQTIPackage`) is not present under `src/` — only its callers
in `quiz.service.ts` and the testing guide reference it.  Per spec §4.1 the
builder signals `PackagingError` when zero questions are supplied or when a
question fails the final shape check (the input constraint it trusts: exactly
4 options and a present correct answer); it performs no further re-validation
("builder trusts its caller"), writes the ZIP and returns a relative path
derived from the filename.  Filesystem failures are not modelled (the claims
quantify over runs in which the disk write succeeds). -/
def generateQTIPackage (req : QuizPackageRequest) : Except Err String :=
  if req.questions.isEmpty then
    Except.error (Err.packagingError "no questions supplied")
  else if req.questions.all
      (fun q => q.options.length == 4 && !(q.correctAnswer == "")) then
    Except.ok ("packages/" ++ req.filename ++ ".zip")
  else
    Except.error (Err.packagingError "question failed shape check")

/-- Models the `env.API_URL` configuration value used to compute download
URLs. -/
def API_URL : String := "http://localhost:5000"

/-! ### Quiz orchestration service (`quiz.service.ts`) -/

/-- `getFileUploadById` (`file.service.ts` lines 620-633):
`prisma.fileUpload.findFirst({where: {id, userId}})`, 404 when absent. -/
def getFileUploadById (db : DB) (fileId userId : String) :
    Except Err FileUploadRec :=
  match db.fileUploads.find? (fun f => f.id == fileId && f.userId == userId) with
  | none => Except.error (Err.appError 404 "File not found")
  | some f => Except.ok f

/-- `getQuizById` (`quiz.service.ts` lines 136-158):
`prisma.quiz.findFirst({where: {id, userId}})`, 404 when absent. -/
def getQuizById (db : DB) (quizId userId : String) : Except Err QuizRec :=
  match db.quizzes.find? (fun q => q.id == quizId && q.userId == userId) with
  | none => Except.error (Err.appError 404 "Quiz not found")
  | some q => Except.ok q

/-- `finalCount` computation of `generateQuiz` (`quiz.service.ts` lines
52-53): `requestedCount = questionCount || planLimits.questionsPerQuiz`
(so a supplied `0` is falsy and falls back to the plan value), then
`finalCount = Math.min(requestedCount, planLimits.questionsPerQuiz)`. -/
def computeFinalCount (questionCount : Option Int) (planLimits : PlanLimits) : Int :=
  let requestedCount :=
    match questionCount with
    | some c => if c = 0 then planLimits.questionsPerQuiz else c
    | none => planLimits.questionsPerQuiz
  min requestedCount planLimits.questionsPerQuiz

/-- `generateQuiz` (`quiz.service.ts` lines 31-112): user lookup, file lookup
scoped to the user, extracted-text presence check, plan-limits lookup (a
`TypeError` surfaces at the first property access when the plan is not in the
table), count clamping, question generation, filename derivation, package
build, record creation and usage recording.  `newQuizId` stands for the id
Prisma assigns to the created record. -/
def generateQuiz (db : DB) (llm : LLM) (newQuizId : String)
    (userId fileId : String) (questionCount : Option Int)
    (title : Option String) (filename : Option String) :
    Except Err QuizRec × DB × List Event :=
  match db.users.find? (fun u => u.id == userId) with
  | none => (Except.error (Err.appError 404 "User not found"), db, [])
  | some user =>
    match db.fileUploads.find? (fun f => f.id == fileId && f.userId == userId) with
    | none => (Except.error (Err.appError 404 "File not found"), db, [])
    | some fileUpload =>
      match fileUpload.extractedText with
      | none => (Except.error (Err.appError 400 "File has no extracted text"), db, [])
      | some extractedText =>
        if extractedText = "" then
          (Except.error (Err.appError 400 "File has no extracted text"), db, [])
        else
          match PLAN_LIMITS_BY_NAME user.plan with
          | none =>
            (Except.error (Err.typeError
              "Cannot read properties of undefined (reading questionsPerQuiz)"),
             db, [])
          | some planLimits =>
            let finalCount := computeFinalCount questionCount planLimits
            let quizTitle := jsOr title fileUpload.originalName
            let gen := generateQuizQuestions llm extractedText finalCount quizTitle
            match gen.1 with
            | Except.error e => (Except.error e, db, gen.2)
            | Except.ok questions =>
              let safeFilename := jsOr filename (sanitizeFilename quizTitle)
              let req : QuizPackageRequest :=
                { title := quizTitle, questions := questions
                  hasWatermark := planLimits.hasWatermark, filename := safeFilename }
              let events := gen.2 ++ [Event.buildPackage quizTitle questions
                planLimits.hasWatermark safeFilename]
              match generateQTIPackage req with
              | Except.error e => (Except.error e, db, events)
              | Except.ok qtiFilePath =>
                let quiz : QuizRec :=
                  { id := newQuizId, userId := userId, fileUploadId := fileId
                    title := quizTitle, questions := questions
                    questionCount := questions.length, qtiFilePath := qtiFilePath
                    qtiFileUrl := API_URL ++ "/" ++ qtiFilePath
                    plan := user.plan, hasWatermark := planLimits.hasWatermark }
                (Except.ok quiz,
                 { db with
                    quizzes := db.quizzes ++ [quiz]
                    usage := db.usage ++
                      [{ userId := userId, action := "QUIZ_GENERATION", plan := user.plan },
                       { userId := userId, action := "QTI_EXPORT", plan := user.plan }] },
                 events)

/-- `updateQuizQuestions` (`quiz.service.ts` lines 185-244): quiz lookup
scoped to the user, user and plan-limits lookup, best-effort unlink of the
old package file, rebuild of the package from the caller-supplied question
list (no LLM involvement), and in-place update of the stored record.  Only
`questions`, `questionCount`, `qtiFilePath` and `qtiFileUrl` are written. -/
def updateQuizQuestions (db : DB) (quizId userId : String)
    (questions : List QuizQuestion) (filename : Option String) :
    Except Err QuizRec × DB × List Event :=
  match db.quizzes.find? (fun q => q.id == quizId && q.userId == userId) with
  | none => (Except.error (Err.appError 404 "Quiz not found"), db, [])
  | some quiz =>
    match db.users.find? (fun u => u.id == userId) with
    | none => (Except.error (Err.appError 404 "User not found"), db, [])
    | some user =>
      match PLAN_LIMITS_BY_NAME user.plan with
      | none =>
        (Except.error (Err.typeError
          "Cannot read properties of undefined (reading hasWatermark)"), db, [])
      | some planLimits =>
        let unlinkEvents :=
          if quiz.qtiFilePath = "" then [] else [Event.unlink quiz.qtiFilePath]
        let safeFilename := jsOr filename (sanitizeFilename quiz.title)
        let req : QuizPackageRequest :=
          { title := quiz.title, questions := questions
            hasWatermark := planLimits.hasWatermark, filename := safeFilename }
        let events := unlinkEvents ++ [Event.buildPackage quiz.title questions
          planLimits.hasWatermark safeFilename]
        match generateQTIPackage req with
        | Except.error e => (Except.error e, db, events)
        | Except.ok qtiFilePath =>
          let updated : QuizRec :=
            { quiz with
                questions := questions, questionCount := questions.length
                qtiFilePath := qtiFilePath
                qtiFileUrl := API_URL ++ "/" ++ qtiFilePath }
          (Except.ok updated,
           { db with
              quizzes := db.quizzes.map (fun q =>
                if q.id == quizId then
                  { q with
                      questions := questions, questionCount := questions.length
                      qtiFilePath := qtiFilePath
                      qtiFileUrl := API_URL ++ "/" ++ qtiFilePath }
                else q) },
           events)

/-- `deleteQuiz` (`quiz.service.ts` lines 163-180): ownership-scoped lookup,
best-effort unlink of the package file, then deletion of the record by id. -/
def deleteQuiz (db : DB) (quizId userId : String) :
    Except Err Unit × DB × List Event :=
  match db.quizzes.find? (fun q => q.id == quizId && q.userId == userId) with
  | none => (Except.error (Err.appError 404 "Quiz not found"), db, [])
  | some quiz =>
    let unlinkEvents :=
      if quiz.qtiFilePath = "" then [] else [Event.unlink quiz.qtiFilePath]
    (Except.ok (),
     { db with quizzes := db.quizzes.filter (fun q => !(q.id == quizId)) },
     unlinkEvents)

/-- `generateSingleQuestion` of the service layer (`quiz.service.ts` lines
249-279): ownership-scoped file lookup, extracted-text presence check, one
`generateSingleQuestion` OpenAI call passed the existing question texts.  No
persistence is touched. -/
def generateSingleQuestionService (db : DB) (llm : LLM)
    (fileUploadId userId : String) (existingQuestions : List String) :
    Except Err QuizQuestion × DB × List Event :=
  match db.fileUploads.find?
      (fun f => f.id == fileUploadId && f.userId == userId) with
  | none => (Except.error (Err.appError 404 "File not found"), db, [])
  | some fileUpload =>
    match fileUpload.extractedText with
    | none => (Except.error (Err.appError 400 "File has no extracted text"), db, [])
    | some extractedText =>
      if extractedText = "" then
        (Except.error (Err.appError 400 "File has no extracted text"), db, [])
      else
        let r := validateSingle (llm.single 0)
        (r, db, [Event.llmSingle existingQuestions r.toOption])

/-! ### File service (`file.service.ts`, part_008 lines 507-633) -/

/-- An uploaded file as Multer presents it. -/
structure UploadedFile where
  filename : String
  originalname : String
  mimetype : String
  size : Nat
  path : String
deriving Repr, DecidableEq

/-- `getFileType` (lines 583-591). -/
def getFileType (mimetype : String) : Option String :=
  if mimetype = "application/pdf" then some "PDF"
  else if mimetype =
      "application/vnd.openxmlformats-officedocument.wordprocessingml.document" then
    some "DOCX"
  else if mimetype = "text/plain" then some "TXT"
  else none

/-- The "content too short" message of `processFileUpload` line 550. -/
def tooShortMsg : String :=
  "File content too short or empty. Please upload a file with at least 100 characters."

/-- `processFileUpload` (lines 507-578): validate the MIME type, create a
PROCESSING record, run extraction (its outcome is the `extractionResult`
parameter: `Except.error` models a throwing extractor), reject extracted text
whose trimmed length is under 100 characters, and mark the record COMPLETED
with the text or FAILED with the error message.  `newId` stands for the id
Prisma assigns to the created record. -/
def processFileUpload (db : DB) (newId : String) (userId : String)
    (file : UploadedFile) (extractionResult : Except String String) :
    Except Err (String × String) × DB :=
  match getFileType file.mimetype with
  | none =>
    (Except.error (Err.appError 400
      "Invalid file type. Only PDF, DOCX, and TXT are allowed"), db)
  | some fileType =>
    let created : FileUploadRec :=
      { id := newId, userId := userId, fileName := file.filename
        originalName := file.originalname, fileType := fileType
        fileSize := file.size, filePath := file.path
        status := UploadStatus.PROCESSING, extractedText := none, error := none }
    let db1 := { db with fileUploads := db.fileUploads ++ [created] }
    let markFailed := fun (msg : String) =>
      { db1 with
          fileUploads := db1.fileUploads.map (fun f =>
            if f.id == newId then
              { f with status := UploadStatus.FAILED, error := some msg }
            else f) }
    match extractionResult with
    | Except.error msg => (Except.error (Err.genericError msg), markFailed msg)
    | Except.ok extractedText =>
      if extractedText = "" ∨ (jsTrim extractedText).length < 100 then
        (Except.error (Err.appError 400 tooShortMsg), markFailed tooShortMsg)
      else
        (Except.ok (newId, extractedText),
         { db1 with
            fileUploads := db1.fileUploads.map (fun f =>
              if f.id == newId then
                { f with status := UploadStatus.COMPLETED
                         extractedText := some extractedText }
              else f) })

/-! ### Dashboard client (`apps/web/src/app/dashboard/page.tsx`, part_003) -/

/-- `checkForDuplicates` (part_003 lines 696-700): normalize every question
text with `toLowerCase().trim()` and compare the count against the size of
the deduplicated set. -/
def checkForDuplicates (questions : List QuizQuestion) : Bool :=
  let questionTexts := questions.map (fun q => jsTrim (jsToLower q.question))
  questionTexts.length != questionTexts.dedup.length

/-- The action `handleAcceptQuiz` (part_003 lines 702-737) takes: refuse when
duplicates are detected (no request is sent), issue a PATCH when the
questions or the filename changed, otherwise just close the dialog. -/
inductive AcceptAction where
  | refuseDuplicates
  | patch (quizId : String) (questions : List QuizQuestion) (filename : String)
  | closeOnly
deriving Repr, DecidableEq

/-- `handleAcceptQuiz` (part_003 lines 702-737); the `JSON.stringify`
comparison of the original and edited question lists is modelled as
structural equality. -/
def handleAcceptQuiz (quizId : String)
    (originalQuestions editedQuestions : List QuizQuestion)
    (filename originalFilename : String) : AcceptAction :=
  if checkForDuplicates editedQuestions then AcceptAction.refuseDuplicates
  else if originalQuestions ≠ editedQuestions ∨ filename ≠ originalFilename then
    AcceptAction.patch quizId editedQuestions filename
  else AcceptAction.closeOnly

/-! ### Derived notions used by the theorems -/

/-- The spec's sanitization alphabet for filenames: `[a-z0-9_-]`. -/
def allowedChar (c : Char) : Bool :=
  (decide (97 ≤ c.toNat) && decide (c.toNat ≤ 122)) ||
  (decide (48 ≤ c.toNat) && decide (c.toNat ≤ 57)) ||
  c = '_' || c = '-'

/-- A filename drawn entirely from the spec's `[a-z0-9_-]` alphabet. -/
def filenameSanitized (s : String) : Bool := s.data.all allowedChar

/-- Spec-side count formula of §4.3 for comparison with `computeFinalCount`:
`finalCount = min(requestedCount ?? planDefault, planMax)`, where a supplied
count — any number, including 0 — enters the min. -/
def specFinalCount (questionCount : Option Int) (planLimits : PlanLimits) : Int :=
  min (questionCount.getD planLimits.questionsPerQuiz) planLimits.questionsPerQuiz

/-- The single-question calls of a trace: avoid-list and outcome of each
`llmSingle` event, in order. -/
def singleCalls (events : List Event) : List (List String × Option QuizQuestion) :=
  events.filterMap (fun e =>
    match e with
    | Event.llmSingle avoid outcome => some (avoid, outcome)
    | _ => none)

/-- The question texts accepted from a list of single-question calls. -/
def acceptedTexts (calls : List (List String × Option QuizQuestion)) : List String :=
  (calls.filterMap (fun c => c.2)).map (fun q => q.question)

/-- Whether an event is an OpenAI (LLM) interaction. -/
def isLLMEvent : Event → Bool
  | Event.llmBulk _ => true
  | Event.llmSingle _ _ => true
  | _ => false

/-- The build-package events of a trace. -/
def buildRequests (events : List Event) : List QuizPackageRequest :=
  events.filterMap (fun e =>
    match e with
    | Event.buildPackage t qs w fn =>
      some { title := t, questions := qs, hasWatermark := w, filename := fn }
    | _ => none)

/-- Two record lists differ only in records owned by `uid`. -/
def ownedDelta (old new : List QuizRec) (uid : String) : Prop :=
  (∀ q, q ∈ new → q ∈ old ∨ q.userId = uid) ∧
  (∀ q, q ∈ old → q ∈ new ∨ q.userId = uid)

/-! ### Concrete fixtures used by counterexamples and witnesses -/

/-- A well-formed parsed LLM entry. -/
def exGoodRaw : RawQuestion :=
  { question := some "What is 2+2?", options := some ["3", "4", "5", "6"]
    correctAnswer := some "4", explanation := some "Basic math" }

/-- Its validated (trimmed) form. -/
def exGoodQ : QuizQuestion :=
  { question := "What is 2+2?", options := ["3", "4", "5", "6"]
    correctAnswer := "4", explanation := some "Basic math" }

/-- A second well-formed entry, used for backfill calls. -/
def exGoodRaw2 : RawQuestion :=
  { question := some "What is 3+3?", options := some ["4", "5", "6", "7"]
    correctAnswer := some "6", explanation := none }

/-- A parsed LLM entry whose `correctAnswer` is not one of its options. -/
def exBadRaw : RawQuestion :=
  { question := some "Which option is correct?"
    options := some ["A", "B", "C", "D"]
    correctAnswer := some "E", explanation := none }

/-- Its validated form: validation accepts it although `"E"` is not an
option. -/
def exBadQ : QuizQuestion :=
  { question := "Which option is correct?", options := ["A", "B", "C", "D"]
    correctAnswer := "E", explanation := none }

/-- A FREE-plan user. -/
def exUser : UserRec := { id := "u1", plan := "FREE" }

/-- A completed file upload owned by `u1`. -/
def exFile : FileUploadRec :=
  { id := "f1", userId := "u1", fileName := "lec.pdf"
    originalName := "Lecture Notes.pdf", fileType := "PDF", fileSize := 2048
    filePath := "uploads/lec.pdf", status := UploadStatus.COMPLETED
    extractedText := some "some extracted lecture text", error := none }

/-- A store holding `u1` and its upload. -/
def exDb : DB := { users := [exUser], fileUploads := [exFile], quizzes := [], usage := [] }

/-- An LLM whose bulk response is the single dangling-answer entry. -/
def exLlmBad : LLM := { bulkContent := some [exBadRaw], single := fun _ => none }

/-- An LLM whose bulk response is one good entry and whose backfill calls
return another. -/
def exLlmShort : LLM :=
  { bulkContent := some [exGoodRaw], single := fun _ => some exGoodRaw2 }

/-- An existing quiz record owned by `u1`. -/
def exQuizRec : QuizRec :=
  { id := "qz1", userId := "u1", fileUploadId := "f1", title := "Algebra Quiz"
    questions := [exGoodQ], questionCount := 1
    qtiFilePath := "packages/algebra_quiz.zip"
    qtiFileUrl := API_URL ++ "/packages/algebra_quiz.zip"
    plan := "FREE", hasWatermark := true }

/-- A store that also holds that quiz. -/
def exDbQuiz : DB :=
  { users := [exUser], fileUploads := [exFile], quizzes := [exQuizRec], usage := [] }

/-- Two questions whose texts are case-insensitively identical after
trimming. -/
def dupQ1 : QuizQuestion :=
  { question := "What is X?", options := ["A", "B", "C", "D"]
    correctAnswer := "A", explanation := none }

/-- See `dupQ1`. -/
def dupQ2 : QuizQuestion :=
  { question := "what is x? ", options := ["A", "B", "C", "D"]
    correctAnswer := "B", explanation := none }

/-- A user on a plan outside the closed table. -/
def exUserEnterprise : UserRec := { id := "u2", plan := "ENTERPRISE" }

/-- An upload owned by the ENTERPRISE user. -/
def exFileEnterprise : FileUploadRec :=
  { exFile with id := "f2", userId := "u2" }

/-- A store for the unknown-plan scenario. -/
def exDbEnterprise : DB :=
  { users := [exUserEnterprise], fileUploads := [exFileEnterprise]
    quizzes := [], usage := [] }

/-- A plain-text upload request. -/
def exUpload : UploadedFile :=
  { filename := "notes-1.txt", originalname := "notes.txt"
    mimetype := "text/plain", size := 64, path := "uploads/notes-1.txt" }

/-- Boolean success test for results. -/
def isOkB {α : Type} : Except Err α → Bool
  | Except.ok _ => true
  | Except.error _ => false

/-- The requested counts of the bulk OpenAI calls in a trace. -/
def bulkCounts (events : List Event) : List Int :=
  events.filterMap (fun e =>
    match e with
    | Event.llmBulk c => some c
    | _ => none)

/-! ### Helper lemmas -/

theorem find?_append_singleton {α : Type} (l : List α) (c : α) (p : α → Bool)
    (h : ∀ x ∈ l, p x = false) :
    (l ++ [c]).find? p = if p c then some c else none := by
  induction l with
  | nil => simp only [List.nil_append, List.find?_singleton]
  | cons a as ih =>
    have ha : p a = false := h a (List.mem_cons_self a as)
    simp only [List.cons_append, List.find?, ha]
    exact ih (fun x hx => h x (List.mem_cons_of_mem a hx))

theorem nodup_map_mem_inj {α β : Type} [DecidableEq β] {l : List α} {f : α → β}
    (h : (l.map f).Nodup) {a b : α} (ha : a ∈ l) (hb : b ∈ l)
    (hf : f a = f b) : a = b := by
  induction l with
  | nil => cases ha
  | cons x xs ih =>
    simp only [List.map_cons, List.nodup_cons] at h
    rcases List.mem_cons.mp ha with rfl | ha'
    · rcases List.mem_cons.mp hb with rfl | hb'
      · rfl
      · exact absurd (hf ▸ List.mem_map_of_mem f hb') h.1
    · rcases List.mem_cons.mp hb with rfl | hb'
      · exact absurd (hf ▸ List.mem_map_of_mem f ha') h.1
      · exact ih h.2 ha' hb'

theorem dedup_length_ne_of_not_nodup {α : Type} [DecidableEq α] {l : List α}
    (h : ¬ l.Nodup) : l.dedup.length ≠ l.length := by
  intro hlen
  have hd : l.dedup = l := (List.dedup_sublist l).eq_of_length hlen
  exact h (hd ▸ l.nodup_dedup)

theorem char_toNat_ofNat (n : Nat) (h : n.isValidChar) :
    (Char.ofNat n).toNat = n := by
  unfold Char.ofNat
  rw [dif_pos h]
  rfl

theorem allowedChar_step (c : Char) :
    allowedChar (Char.toLower (if c.isAlphanum then c else '_')) = true := by
  by_cases ha : c.isAlphanum
  · rw [if_pos ha]
    have ha' : (65 ≤ c.toNat ∧ c.toNat ≤ 90) ∨ (97 ≤ c.toNat ∧ c.toNat ≤ 122) ∨
        (48 ≤ c.toNat ∧ c.toNat ≤ 57) := by
      simp only [Char.isAlphanum, Char.isAlpha, Char.isUpper, Char.isLower,
        Char.isDigit, Bool.or_eq_true, Bool.and_eq_true, decide_eq_true_eq] at ha
      rcases ha with (⟨h1, h2⟩ | ⟨h1, h2⟩) | ⟨h1, h2⟩
      · exact Or.inl ⟨h1, h2⟩
      · exact Or.inr (Or.inl ⟨h1, h2⟩)
      · exact Or.inr (Or.inr ⟨h1, h2⟩)
    unfold Char.toLower
    rcases ha' with ⟨h1, h2⟩ | ⟨h1, h2⟩ | ⟨h1, h2⟩
    · rw [if_pos ⟨h1, h2⟩]
      have hv : (c.toNat + 32).isValidChar := Or.inl (by omega)
      have ht : (Char.ofNat (c.toNat + 32)).toNat = c.toNat + 32 :=
        char_toNat_ofNat _ hv
      simp only [allowedChar, Bool.or_eq_true, Bool.and_eq_true,
        decide_eq_true_eq, ht]
      exact Or.inl (Or.inl (Or.inl ⟨by omega, by omega⟩))
    · rw [if_neg (by omega)]
      simp only [allowedChar, Bool.or_eq_true, Bool.and_eq_true, decide_eq_true_eq]
      exact Or.inl (Or.inl (Or.inl ⟨h1, h2⟩))
    · rw [if_neg (by omega)]
      simp only [allowedChar, Bool.or_eq_true, Bool.and_eq_true, decide_eq_true_eq]
      exact Or.inl (Or.inl (Or.inr ⟨h1, h2⟩))
  · rw [if_neg ha]
    decide

theorem sanitizeFilename_sanitized (s : String) :
    filenameSanitized (sanitizeFilename s) = true := by
  simp only [sanitizeFilename, jsToLower, filenameSanitized, List.all_eq_true,
    List.map_map]
  intro c hc
  rcases List.mem_map.mp hc with ⟨c0, _, rfl⟩
  exact allowedChar_step c0

theorem dup_texts_flagged (qs : List QuizQuestion) (i j : Nat)
    (hi : i < qs.length) (hj : j < qs.length) (hij : i ≠ j)
    (heq : jsTrim (jsToLower (qs.get ⟨i, hi⟩).question)
         = jsTrim (jsToLower (qs.get ⟨j, hj⟩).question)) :
    checkForDuplicates qs = true := by
  unfold checkForDuplicates
  have hli : i < (qs.map (fun q => jsTrim (jsToLower q.question))).length := by
    simpa using hi
  have hlj : j < (qs.map (fun q => jsTrim (jsToLower q.question))).length := by
    simpa using hj
  have hnd : ¬ (qs.map (fun q => jsTrim (jsToLower q.question))).Nodup := by
    intro hnodup
    have hinj := List.nodup_iff_injective_get.mp hnodup
    have hgets : (qs.map (fun q => jsTrim (jsToLower q.question))).get ⟨i, hli⟩
        = (qs.map (fun q => jsTrim (jsToLower q.question))).get ⟨j, hlj⟩ := by
      simp only [List.get_eq_getElem, List.getElem_map]
      simpa using heq
    have := hinj hgets
    exact hij (by simpa using this)
  have := dedup_length_ne_of_not_nodup hnd
  simp only [bne_iff_ne, ne_eq]
  omega

/-- **C4** (counterexample): two questions whose texts are case-insensitively
identical after trimming are nevertheless persisted by `updateQuizQuestions`:
the call succeeds and the stored record holds the duplicate list — the
service performs no duplicate check. -/
theorem updateQuizQuestions_persists_duplicates_counterexample :
    jsTrim (jsToLower dupQ1.question) = jsTrim (jsToLower dupQ2.question)
    ∧ isOkB (updateQuizQuestions exDbQuiz "qz1" "u1" [dupQ1, dupQ2] none).1 = true
    ∧ (updateQuizQuestions exDbQuiz "qz1" "u1" [dupQ1, dupQ2] none).2.1.quizzes.map
        (fun q => q.questions) = [[dupQ1, dupQ2]] := by
  refine ⟨by decide, by decide, by decide⟩

/-- **C4** (amended): the duplicate check lives in the web client, not the
orchestration service.  For every question list containing two entries with
case-insensitively identical trimmed text, the dashboard's
`checkForDuplicates` flags the list and `handleAcceptQuiz` refuses to issue
the update request (no PATCH is sent); the server-side `updateQuizQuestions`
itself persists such a list unchecked (see the counterexample). -/
theorem duplicate_check_is_client_side (qs : List QuizQuestion) (i j : Nat)
    (hi : i < qs.length) (hj : j < qs.length) (hij : i ≠ j)
    (heq : jsTrim (jsToLower (qs.get ⟨i, hi⟩).question)
         = jsTrim (jsToLower (qs.get ⟨j, hj⟩).question)) :
    checkForDuplicates qs = true
    ∧ ∀ quizId orig fn ofn,
        handleAcceptQuiz quizId orig qs fn ofn = AcceptAction.refuseDuplicates := by
  have hdup := dup_texts_flagged qs i j hi hj hij heq
  refine ⟨hdup, fun quizId orig fn ofn => ?_⟩
  unfold handleAcceptQuiz
  rw [if_pos hdup]

/-- **C4** witness: the amended theorem applied to the spec's concrete
scenario `["What is X?", "what is x? "]`. -/
theorem duplicate_check_is_client_side_witness :
    checkForDuplicates [dupQ1, dupQ2] = true
    ∧ handleAcceptQuiz "qz1" [exGoodQ] [dupQ1, dupQ2] "algebra_quiz" "algebra_quiz"
        = AcceptAction.refuseDuplicates := by
  have h := duplicate_check_is_client_side [dupQ1, dupQ2] 0 1
    (by decide) (by decide) (by decide) (by decide)
  exact ⟨h.1, h.2 "qz1" [exGoodQ] "algebra_quiz" "algebra_quiz"⟩

/-- **C5**: the plan-limits lookup is total exactly on the closed set
`{FREE, PRO}` with the documented values; for every other plan name the
table yields no row (no silent default), and `generateQuiz` for a user on
such a plan fails fast with a programming-error-class `TypeError` — before
any LLM call, package build or persistence write. -/
theorem planLimits_closed_table_fail_fast (p : String) (db : DB) (llm : LLM)
    (newQuizId userId fileId : String) (qc : Option Int)
    (title filename : Option String) (u : UserRec) (fu : FileUploadRec) (t : String)
    (hf : p ≠ "FREE") (hp : p ≠ "PRO")
    (hu : db.users.find? (fun x => x.id == userId) = some u)
    (hplan : u.plan = p)
    (hfu : db.fileUploads.find? (fun f => f.id == fileId && f.userId == userId)
        = some fu)
    (ht : fu.extractedText = some t) (htne : t ≠ "") :
    PLAN_LIMITS_BY_NAME "FREE"
      = some { uploadsPerWeek := some 1, questionsPerQuiz := 5, hasWatermark := true }
    ∧ PLAN_LIMITS_BY_NAME "PRO"
      = some { uploadsPerWeek := none, questionsPerQuiz := 30, hasWatermark := false }
    ∧ PLAN_LIMITS_BY_NAME p = none
    ∧ (generateQuiz db llm newQuizId userId fileId qc title filename).1
        = Except.error (Err.typeError
            "Cannot read properties of undefined (reading questionsPerQuiz)")
    ∧ (generateQuiz db llm newQuizId userId fileId qc title filename).2.1 = db
    ∧ (generateQuiz db llm newQuizId userId fileId qc title filename).2.2 = [] := by
  have hnone : PLAN_LIMITS_BY_NAME p = none := by
    unfold PLAN_LIMITS_BY_NAME
    rw [if_neg hf, if_neg hp]
  refine ⟨by decide, by decide, hnone, ?_, ?_, ?_⟩ <;>
    simp [generateQuiz, hu, hfu, ht, htne, hplan, hnone]

/-- **C5** witness: the theorem applied to a user on the unknown plan
`ENTERPRISE`. -/
theorem planLimits_closed_table_fail_fast_witness :
    PLAN_LIMITS_BY_NAME "ENTERPRISE" = none
    ∧ (generateQuiz exDbEnterprise exLlmShort "q9" "u2" "f2" none none none).1
        = Except.error (Err.typeError
            "Cannot read properties of undefined (reading questionsPerQuiz)")
    ∧ (generateQuiz exDbEnterprise exLlmShort "q9" "u2" "f2" none none none).2.2
        = [] := by
  have h := planLimits_closed_table_fail_fast "ENTERPRISE" exDbEnterprise exLlmShort
    "q9" "u2" "f2" none none none exUserEnterprise exFileEnterprise
    "some extracted lecture text" (by decide) (by decide) (by decide) (by decide)
    (by decide) (by decide) (by decide)
  exact ⟨h.2.2.1, h.2.2.2.1, h.2.2.2.2.2⟩

/-- **C6**: for every call to `generateQuizQuestions` with a count below 1
or above 30, the generator raises an input-class error (`AppError` with
status 400) and the event trace is empty — no LLM call is made — regardless
of the caller's clamping. -/
theorem generator_count_guard (llm : LLM) (text title : String) (count : Int)
    (h : count < 1 ∨ 30 < count) :
    (∃ m, (generateQuizQuestions llm text count title).1
        = Except.error (Err.appError 400 m))
    ∧ (generateQuizQuestions llm text count title).2 = [] := by
  rcases h with h | h
  · unfold generateQuizQuestions
    rw [if_pos h]
    exact ⟨⟨_, rfl⟩, rfl⟩
  · have h1 : ¬ count < 1 := by omega
    unfold generateQuizQuestions
    rw [if_neg h1, if_pos h]
    exact ⟨⟨_, rfl⟩, rfl⟩

/-- **C6** witness: the theorem applied at counts 0 and 31. -/
theorem generator_count_guard_witness :
    ((∃ m, (generateQuizQuestions exLlmShort "text" 0 "T").1
        = Except.error (Err.appError 400 m))
      ∧ (generateQuizQuestions exLlmShort "text" 0 "T").2 = [])
    ∧ ((∃ m, (generateQuizQuestions exLlmShort "text" 31 "T").1
        = Except.error (Err.appError 400 m))
      ∧ (generateQuizQuestions exLlmShort "text" 31 "T").2 = []) :=
  ⟨generator_count_guard exLlmShort "text" "T" 0 (Or.inl (by decide)),
   generator_count_guard exLlmShort "text" "T" 31 (Or.inr (by decide))⟩

/-- **C8**: `updateQuizQuestions` never emits an LLM event (it is a pure
rebuild: the function is determined by the stored record, the caller's
question list, the optional filename and the plan table, and its model does
not even take the LLM collaborator); on success the returned record keeps
the stored quiz's title and owning user, and every record in the updated
store keeps its id, title, owner and plan. -/
theorem updateQuizQuestions_pure_rebuild (db : DB) (quizId userId : String)
    (questions : List QuizQuestion) (filename : Option String) :
    (∀ e ∈ (updateQuizQuestions db quizId userId questions filename).2.2,
        isLLMEvent e = false)
    ∧ (∀ r, (updateQuizQuestions db quizId userId questions filename).1
          = Except.ok r →
        ∃ q0, db.quizzes.find? (fun q => q.id == quizId && q.userId == userId)
            = some q0 ∧ r.title = q0.title ∧ r.userId = q0.userId)
    ∧ (∀ q', q' ∈ (updateQuizQuestions db quizId userId questions filename).2.1.quizzes →
        ∃ q0, q0 ∈ db.quizzes ∧ q'.id = q0.id ∧ q'.title = q0.title
          ∧ q'.userId = q0.userId ∧ q'.plan = q0.plan) := by
  unfold updateQuizQuestions
  cases hq : db.quizzes.find? (fun q => q.id == quizId && q.userId == userId) with
  | none =>
    simp only [hq]
    exact ⟨by simp, by simp, fun q' hq' => ⟨q', hq', rfl, rfl, rfl, rfl⟩⟩
  | some quiz =>
    cases hu : db.users.find? (fun u => u.id == userId) with
    | none =>
      simp only [hq, hu]
      exact ⟨by simp, by simp, fun q' hq' => ⟨q', hq', rfl, rfl, rfl, rfl⟩⟩
    | some user =>
      cases hpl : PLAN_LIMITS_BY_NAME user.plan with
      | none =>
        simp only [hq, hu, hpl]
        exact ⟨by simp, by simp, fun q' hq' => ⟨q', hq', rfl, rfl, rfl, rfl⟩⟩
      | some pl =>
        simp only [hq, hu, hpl]
        cases hbuild : generateQTIPackage
            { title := quiz.title, questions := questions
              hasWatermark := pl.hasWatermark
              filename := jsOr filename (sanitizeFilename quiz.title) } with
        | error e =>
          simp only [hbuild]
          refine ⟨?_, by simp, fun q' hq' => ⟨q', hq', rfl, rfl, rfl, rfl⟩⟩
          intro ev hev
          simp only [List.mem_append, List.mem_singleton] at hev
          rcases hev with hev | rfl
          · by_cases hpath : quiz.qtiFilePath = ""
            · rw [if_pos hpath] at hev
              cases hev
            · rw [if_neg hpath] at hev
              rcases List.mem_singleton.mp hev with rfl
              rfl
          · rfl
        | ok path =>
          simp only [hbuild]
          refine ⟨?_, ?_, ?_⟩
          · intro ev hev
            simp only [List.mem_append, List.mem_singleton] at hev
            rcases hev with hev | rfl
            · by_cases hpath : quiz.qtiFilePath = ""
              · rw [if_pos hpath] at hev
                cases hev
              · rw [if_neg hpath] at hev
                rcases List.mem_singleton.mp hev with rfl
                rfl
            · rfl
          · intro r hr
            have hr' : ({ quiz with
                questions := questions, questionCount := questions.length
                qtiFilePath := path
                qtiFileUrl := API_URL ++ "/" ++ path } : QuizRec) = r := by
              injection hr
            subst hr'
            exact ⟨quiz, rfl, rfl, rfl⟩
          · intro q' hq'
            rcases List.mem_map.mp hq' with ⟨q0, hq0, rfl⟩
            by_cases hid : (q0.id == quizId) = true
            · rw [if_pos hid]
              exact ⟨q0, hq0, rfl, rfl, rfl, rfl⟩
            · rw [if_neg hid]
              exact ⟨q0, hq0, rfl, rfl, rfl, rfl⟩

/-- **C8** witness: the theorem applied to a concrete rebuild of quiz
`qz1`. -/
theorem updateQuizQuestions_pure_rebuild_witness :
    isLLMEvent (Event.buildPackage "Algebra Quiz" [exGoodQ] true "algebra_quiz")
      = false
    ∧ (∃ q0, exDbQuiz.quizzes.find? (fun q => q.id == "qz1" && q.userId == "u1")
          = some q0
        ∧ ({ exQuizRec with
              questions := [exGoodQ], questionCount := 1
              qtiFilePath := "packages/algebra_quiz.zip"
              qtiFileUrl := API_URL ++ "/" ++ "packages/algebra_quiz.zip" }
            : QuizRec).title = q0.title
        ∧ ({ exQuizRec with
              questions := [exGoodQ], questionCount := 1
              qtiFilePath := "packages/algebra_quiz.zip"
              qtiFileUrl := API_URL ++ "/" ++ "packages/algebra_quiz.zip" }
            : QuizRec).userId = q0.userId) := by
  refine ⟨?_, ?_⟩
  · exact (updateQuizQuestions_pure_rebuild exDbQuiz "qz1" "u1" [exGoodQ] none).1
      _ (by decide)
  · exact (updateQuizQuestions_pure_rebuild exDbQuiz "qz1" "u1" [exGoodQ] none).2.1
      _ (by rfl)

theorem buildRequests_llmBulk (c : Int) (l : List Event) :
    buildRequests (Event.llmBulk c :: l) = buildRequests l := rfl

theorem buildRequests_llmSingle (a : List String) (o : Option QuizQuestion)
    (l : List Event) :
    buildRequests (Event.llmSingle a o :: l) = buildRequests l := rfl

theorem buildRequests_append (l1 l2 : List Event) :
    buildRequests (l1 ++ l2) = buildRequests l1 ++ buildRequests l2 :=
  List.filterMap_append l1 l2 _

theorem buildRequests_backfill (llm : LLM) (ex0 : List String) :
    ∀ rem i add, buildRequests (backfillLoop llm ex0 i rem add).2 = [] := by
  intro rem
  induction rem with
  | zero => intro i add; rfl
  | succ r ih =>
    intro i add
    unfold backfillLoop
    cases h : validateSingle (llm.single i) with
    | ok q => simpa [buildRequests_llmSingle] using ih (i + 1) (add ++ [q])
    | error e => simpa [buildRequests_llmSingle] using ih (i + 1) add

theorem buildRequests_generator (llm : LLM) (t : String) (c : Int) (ttl : String) :
    buildRequests (generateQuizQuestions llm t c ttl).2 = [] := by
  unfold generateQuizQuestions
  by_cases h1 : c < 1
  · rw [if_pos h1]
    rfl
  · rw [if_neg h1]
    by_cases h2 : c > 30
    · rw [if_pos h2]
      rfl
    · rw [if_neg h2]
      cases hb : llm.bulkContent with
      | none => rfl
      | some raws =>
        dsimp only
        cases hv : validateQuestions raws with
        | error e => rfl
        | ok validated =>
          dsimp only
          by_cases h3 : validated.length < c.toNat
          · rw [if_pos h3]
            by_cases h4 : (validated ++
                (backfillLoop llm (validated.map (fun q => q.question)) 0
                  (c.toNat - validated.length) []).1).length < c.toNat
            · rw [if_pos h4]
              rw [buildRequests_llmBulk, buildRequests_backfill]
            · rw [if_neg h4]
              rw [buildRequests_llmBulk, buildRequests_backfill]
          · rw [if_neg h3]
            rfl

/-- **C7** (counterexample): a caller-supplied filename reaches the Package
Builder verbatim: `generateQuiz` with `filename = "My File!"` issues a build
request whose filename contains characters outside `[a-z0-9_-]`, and the
package is built. -/
theorem explicit_filename_unsanitized_counterexample :
    buildRequests (generateQuiz exDb exLlmShort "q1" "u1" "f1" (some 1)
        (some "Algebra Quiz") (some "My File!")).2.2
      = [{ title := "Algebra Quiz", questions := [exGoodQ], hasWatermark := true
           filename := "My File!" }]
    ∧ filenameSanitized "My File!" = false
    ∧ isOkB (generateQuiz exDb exLlmShort "q1" "u1" "f1" (some 1)
        (some "Algebra Quiz") (some "My File!")).1 = true := by
  refine ⟨by decide, by decide, by decide⟩

/-- **C7** (amended): sanitization to `[a-z0-9_-]` holds only for filenames
derived from the title: `sanitizeFilename` always lands in the allowed
alphabet, and when the caller supplies no filename every build request
issued by `generateQuiz` or `updateQuizQuestions` carries a sanitized
filename.  A caller-supplied filename is passed through unsanitized (see
the counterexample). -/
theorem derived_filename_sanitized (s : String) (db : DB) (llm : LLM)
    (nid uid fid qid : String) (qc : Option Int) (title : Option String)
    (qs : List QuizQuestion) :
    filenameSanitized (sanitizeFilename s) = true
    ∧ (∀ req ∈ buildRequests (generateQuiz db llm nid uid fid qc title none).2.2,
        filenameSanitized req.filename = true)
    ∧ (∀ req ∈ buildRequests (updateQuizQuestions db qid uid qs none).2.2,
        filenameSanitized req.filename = true) := by
  refine ⟨sanitizeFilename_sanitized s, ?_, ?_⟩
  · unfold generateQuiz
    cases hu : db.users.find? (fun x => x.id == uid) with
    | none => simp only [hu]; intro req h; cases h
    | some user =>
      cases hfu : db.fileUploads.find? (fun f => f.id == fid && f.userId == uid) with
      | none => simp only [hu, hfu]; intro req h; cases h
      | some fu =>
        simp only [hu, hfu]
        cases ht : fu.extractedText with
        | none => intro req h; cases h
        | some t =>
          dsimp only
          by_cases ht2 : t = ""
          · rw [if_pos ht2]; intro req h; cases h
          · rw [if_neg ht2]
            cases hpl : PLAN_LIMITS_BY_NAME user.plan with
            | none => intro req h; cases h
            | some pl =>
              dsimp only
              intro req hreq
              split at hreq
              · simp only [buildRequests_generator] at hreq
                cases hreq
              · split at hreq
                all_goals
                  simp only [buildRequests_append, buildRequests_generator,
                    List.nil_append] at hreq
                all_goals rcases List.mem_singleton.mp hreq with rfl
                all_goals exact sanitizeFilename_sanitized _
  · unfold updateQuizQuestions
    cases hq : db.quizzes.find? (fun q => q.id == qid && q.userId == uid) with
    | none => simp only [hq]; intro req h; cases h
    | some quiz =>
      cases hu : db.users.find? (fun u => u.id == uid) with
      | none => simp only [hq, hu]; intro req h; cases h
      | some user =>
        cases hpl : PLAN_LIMITS_BY_NAME user.plan with
        | none => simp only [hq, hu, hpl]; intro req h; cases h
        | some pl =>
          simp only [hq, hu, hpl]
          intro req hreq
          split at hreq
          all_goals
            simp only [buildRequests_append] at hreq
            rw [List.mem_append] at hreq
            rcases hreq with hreq | hreq
            · by_cases hpath : quiz.qtiFilePath = ""
              · rw [if_pos hpath] at hreq; cases hreq
              · rw [if_neg hpath] at hreq; cases hreq
            · rcases List.mem_singleton.mp hreq with rfl
              exact sanitizeFilename_sanitized _

/-- **C7** witness: the theorem applied to the title `"Lecture Notes.pdf"`
and a concrete build request. -/
theorem derived_filename_sanitized_witness :
    filenameSanitized (sanitizeFilename "Lecture Notes.pdf") = true
    ∧ filenameSanitized
        ({ title := "Algebra Quiz", questions := [exGoodQ], hasWatermark := true
           filename := sanitizeFilename "Algebra Quiz" } : QuizPackageRequest).filename
      = true := by
  refine ⟨(derived_filename_sanitized "Lecture Notes.pdf" exDb exLlmShort
    "q1" "u1" "f1" "qz1" (some 1) (some "Algebra Quiz") [exGoodQ]).1, ?_⟩
  exact (derived_filename_sanitized "Lecture Notes.pdf" exDb exLlmShort
    "q1" "u1" "f1" "qz1" (some 1) (some "Algebra Quiz") [exGoodQ]).2.1
    _ (by decide)

theorem bulkCounts_llmSingle (a : List String) (o : Option QuizQuestion)
    (l : List Event) :
    bulkCounts (Event.llmSingle a o :: l) = bulkCounts l := rfl

theorem bulkCounts_llmBulk_cons (c : Int) (l : List Event) :
    bulkCounts (Event.llmBulk c :: l) = c :: bulkCounts l := rfl

theorem bulkCounts_backfill (llm : LLM) (ex0 : List String) :
    ∀ rem i add, bulkCounts (backfillLoop llm ex0 i rem add).2 = [] := by
  intro rem
  induction rem with
  | zero => intro i add; rfl
  | succ r ih =>
    intro i add
    unfold backfillLoop
    cases h : validateSingle (llm.single i) with
    | ok q => simpa [bulkCounts_llmSingle] using ih (i + 1) (add ++ [q])
    | error e => simpa [bulkCounts_llmSingle] using ih (i + 1) add

theorem bulkCounts_generator (llm : LLM) (t : String) (c : Int) (ttl : String) :
    ∀ x ∈ bulkCounts (generateQuizQuestions llm t c ttl).2, x = c := by
  unfold generateQuizQuestions
  by_cases h1 : c < 1
  · rw [if_pos h1]
    intro x hx; cases hx
  · rw [if_neg h1]
    by_cases h2 : c > 30
    · rw [if_pos h2]
      intro x hx; cases hx
    · rw [if_neg h2]
      cases hb : llm.bulkContent with
      | none =>
        intro x hx
        rcases List.mem_singleton.mp hx with rfl
        rfl
      | some raws =>
        dsimp only
        cases hv : validateQuestions raws with
        | error e =>
          intro x hx
          rcases List.mem_singleton.mp hx with rfl
          rfl
        | ok validated =>
          dsimp only
          by_cases h3 : validated.length < c.toNat
          · rw [if_pos h3]
            intro x hx
            by_cases h4 : (validated ++
                (backfillLoop llm (validated.map (fun q => q.question)) 0
                  (c.toNat - validated.length) []).1).length < c.toNat
            · rw [if_pos h4] at hx
              rw [bulkCounts_llmBulk_cons, bulkCounts_backfill] at hx
              rcases List.mem_singleton.mp hx with rfl
              rfl
            · rw [if_neg h4] at hx
              rw [bulkCounts_llmBulk_cons, bulkCounts_backfill] at hx
              rcases List.mem_singleton.mp hx with rfl
              rfl
          · rw [if_neg h3]
            intro x hx
            rcases List.mem_singleton.mp hx with rfl
            rfl

/-- **C2** (counterexample): a caller-supplied `questionCount = 0` does not
enter the min: the spec formula gives `min(0, 5) = 0` for a FREE user, but
the code's `questionCount || planDefault` treats 0 as absent and the
generator is called with count 5. -/
theorem zero_requested_count_counterexample :
    bulkCounts (generateQuiz exDb exLlmShort "q1" "u1" "f1" (some 0)
        (some "T") none).2.2 = [5]
    ∧ PLAN_LIMITS_BY_NAME "FREE"
        = some { uploadsPerWeek := some 1, questionsPerQuiz := 5, hasWatermark := true }
    ∧ specFinalCount (some 0)
        { uploadsPerWeek := some 1, questionsPerQuiz := 5, hasWatermark := true } = 0
    ∧ (5 : Int) ≠ specFinalCount (some 0)
        { uploadsPerWeek := some 1, questionsPerQuiz := 5, hasWatermark := true } := by
  refine ⟨by decide, by decide, by decide, by decide⟩

/-- **C2** (amended): every bulk LLM call issued by `generateQuiz` carries
exactly `computeFinalCount` of the caller's count and the user's plan row;
that count equals `min(requestedCount, planMax)` when a non-zero count is
supplied, and falls back to the plan value when the count is absent OR zero
(zero is falsy under `||`). -/
theorem finalCount_clamping (db : DB) (llm : LLM) (nid uid fid : String)
    (qc : Option Int) (title filename : Option String)
    (u : UserRec) (pl : PlanLimits)
    (hu : db.users.find? (fun x => x.id == uid) = some u)
    (hpl : PLAN_LIMITS_BY_NAME u.plan = some pl) :
    (∀ c ∈ bulkCounts (generateQuiz db llm nid uid fid qc title filename).2.2,
        c = computeFinalCount qc pl)
    ∧ (∀ c0 : Int, qc = some c0 → c0 ≠ 0 →
        computeFinalCount qc pl = min c0 pl.questionsPerQuiz)
    ∧ ((qc = none ∨ qc = some 0) → computeFinalCount qc pl = pl.questionsPerQuiz) := by
  refine ⟨?_, ?_, ?_⟩
  · unfold generateQuiz
    simp only [hu]
    cases hfu : db.fileUploads.find? (fun f => f.id == fid && f.userId == uid) with
    | none => intro c hc; cases hc
    | some fu =>
      dsimp only
      cases ht : fu.extractedText with
      | none => intro c hc; cases hc
      | some t =>
        dsimp only
        by_cases ht2 : t = ""
        · rw [if_pos ht2]; intro c hc; cases hc
        · rw [if_neg ht2]
          rw [hpl]
          dsimp only
          intro c hc
          split at hc
          · exact bulkCounts_generator llm t (computeFinalCount qc pl)
              (jsOr title fu.originalName) c hc
          · split at hc
            all_goals
              simp only [bulkCounts, List.filterMap_append, List.filterMap_cons,
                List.filterMap_nil, List.append_nil] at hc
            all_goals
              exact bulkCounts_generator llm t (computeFinalCount qc pl)
                (jsOr title fu.originalName) c hc
  · intro c0 hc0 hne
    subst hc0
    unfold computeFinalCount
    dsimp only
    rw [if_neg hne]
  · intro h
    rcases h with rfl | rfl
    · unfold computeFinalCount
      exact min_self _
    · unfold computeFinalCount
      dsimp only
      rw [if_pos rfl]
      exact min_self _

/-- **C2** witness: the amended theorem applied at counts 0 and 3 on the
FREE plan row. -/
theorem finalCount_clamping_witness :
    ((5 : Int) = computeFinalCount (some 0)
        { uploadsPerWeek := some 1, questionsPerQuiz := 5, hasWatermark := true })
    ∧ computeFinalCount (some 3)
        { uploadsPerWeek := some 1, questionsPerQuiz := 5, hasWatermark := true }
      = min 3 5
    ∧ computeFinalCount (some 0)
        { uploadsPerWeek := some 1, questionsPerQuiz := 5, hasWatermark := true }
      = (5 : Int) := by
  refine ⟨?_, ?_, ?_⟩
  · exact (finalCount_clamping exDb exLlmShort "q1" "u1" "f1" (some 0) (some "T")
      none exUser _ (by decide) (by decide)).1 5 (by decide)
  · exact (finalCount_clamping exDb exLlmShort "q1" "u1" "f1" (some 3) (some "T")
      none exUser _ (by decide) (by decide)).2.1 3 rfl (by decide)
  · exact (finalCount_clamping exDb exLlmShort "q1" "u1" "f1" (some 0) (some "T")
      none exUser _ (by decide) (by decide)).2.2 (Or.inr rfl)

theorem generateQTIPackage_ok_shape (req : QuizPackageRequest) (s : String)
    (h : generateQTIPackage req = Except.ok s) :
    ∀ q ∈ req.questions, q.options.length = 4 ∧ q.correctAnswer ≠ "" := by
  unfold generateQTIPackage at h
  by_cases h1 : req.questions.isEmpty
  · rw [if_pos h1] at h; cases h
  · rw [if_neg h1] at h
    by_cases h2 : req.questions.all
        (fun q => q.options.length == 4 && !(q.correctAnswer == "")) = true
    · intro q hq
      have hx := List.all_eq_true.mp h2 q hq
      simp only [Bool.and_eq_true, beq_iff_eq, Bool.not_eq_true',
        beq_eq_false_iff_ne] at hx
      exact hx
    · rw [if_neg h2] at h; cases h

/-- **C1** (counterexample): an LLM entry whose `correctAnswer` ("E") is
not among its four options passes the generator's validation, and the
(spec-modelled) Package Builder builds the package: `generateQuiz` succeeds
end-to-end, so a QTI package IS built from a question with a dangling
correct-answer reference. -/
theorem dangling_correctAnswer_package_counterexample :
    validateQuestions [exBadRaw] = Except.ok [exBadQ]
    ∧ exBadQ.correctAnswer ∉ exBadQ.options
    ∧ isOkB (generateQuiz exDb exLlmBad "q1" "u1" "f1" (some 1)
        (some "Algebra Quiz") (some "algebra_quiz")).1 = true
    ∧ buildRequests (generateQuiz exDb exLlmBad "q1" "u1" "f1" (some 1)
        (some "Algebra Quiz") (some "algebra_quiz")).2.2
      = [{ title := "Algebra Quiz", questions := [exBadQ], hasWatermark := true
           filename := "algebra_quiz" }]
    ∧ generateQTIPackage
        { title := "Algebra Quiz", questions := [exBadQ], hasWatermark := true
          filename := "algebra_quiz" }
      = Except.ok "packages/algebra_quiz.zip" := by
  refine ⟨by rfl, by decide, by decide, by decide, by rfl⟩

/-- **C1** (amended): neither layer enforces `correctAnswer ∈ options`.
The generator's per-entry validation accepts any entry with a present
non-empty question and correct answer and exactly 4 options, regardless of
membership; what holds end-to-end is the weaker shape property: every quiz
returned by a successful `generateQuiz` has questions with exactly 4
options and a non-empty `correctAnswer`. -/
theorem package_shape_without_membership (i : Nat) (qt ca : String)
    (opts : List String) (expl : Option String)
    (hqt : qt ≠ "") (hca : ca ≠ "") (hlen : opts.length = 4) :
    validateQuestionEntry i
        { question := some qt, options := some opts,
          correctAnswer := some ca, explanation := expl }
      = Except.ok { question := jsTrim qt, options := opts.map jsTrim,
                    correctAnswer := jsTrim ca,
                    explanation := expl.map jsTrim }
    ∧ (∀ db llm nid uid fid qc ttl fn r,
        (generateQuiz db llm nid uid fid qc ttl fn).1 = Except.ok r →
        ∀ q ∈ r.questions, q.options.length = 4 ∧ q.correctAnswer ≠ "") := by
  constructor
  · unfold validateQuestionEntry
    dsimp only
    rw [if_neg (by
      rintro (h | h)
      · exact hqt h
      · exact hca h)]
    rw [if_neg (by rw [hlen]; exact fun h => h rfl)]
  · intro db llm nid uid fid qc ttl fn r hr
    unfold generateQuiz at hr
    dsimp only at hr
    split at hr
    · cases hr
    split at hr
    · cases hr
    split at hr
    · cases hr
    split at hr
    · cases hr
    split at hr
    · cases hr
    split at hr
    · cases hr
    split at hr
    · cases hr
    rename_i path hbuild
    injection hr with hr
    subst hr
    exact generateQTIPackage_ok_shape _ _ hbuild

/-- **C1** witness: the amended theorem applied to the dangling-answer
entry and to a successful concrete `generateQuiz` run. -/
theorem package_shape_without_membership_witness :
    validateQuestionEntry 0
        { question := some "Which option is correct?"
          options := some ["A", "B", "C", "D"]
          correctAnswer := some "E", explanation := none }
      = Except.ok { question := jsTrim "Which option is correct?"
                    options := ["A", "B", "C", "D"].map jsTrim
                    correctAnswer := jsTrim "E"
                    explanation := Option.map jsTrim none }
    ∧ (exBadQ.options.length = 4 ∧ exBadQ.correctAnswer ≠ "") := by
  refine ⟨(package_shape_without_membership 0 "Which option is correct?" "E"
      ["A", "B", "C", "D"] none (by decide) (by decide) (by decide)).1, ?_⟩
  exact (package_shape_without_membership 0 "x" "y" ["A", "B", "C", "D"] none
      (by decide) (by decide) (by decide)).2 exDb exLlmBad "q1" "u1" "f1" (some 1)
      (some "Algebra Quiz") (some "algebra_quiz") _ (by rfl) exBadQ (by decide)

theorem map_fresh_id (l : List FileUploadRec) (newId : String)
    (g : FileUploadRec → FileUploadRec)
    (hfresh : ∀ f ∈ l, f.id ≠ newId) :
    l.map (fun f => if f.id == newId then g f else f) = l := by
  induction l with
  | nil => rfl
  | cons a as ih =>
    have ha : a.id ≠ newId := hfresh a (List.mem_cons_self a as)
    rw [List.map_cons, if_neg (by simpa using ha),
      ih (fun f hf => hfresh f (List.mem_cons_of_mem a hf))]

theorem find?_fresh_update (l : List FileUploadRec) (c : FileUploadRec)
    (newId : String) (g : FileUploadRec → FileUploadRec) (p : FileUploadRec → Bool)
    (hfresh : ∀ f ∈ l, f.id ≠ newId) (hc : c.id = newId)
    (hp : ∀ f ∈ l, p f = false) :
    ((l ++ [c]).map (fun f => if f.id == newId then g f else f)).find? p
      = if p (g c) then some (g c) else none := by
  rw [List.map_append, map_fresh_id l newId g hfresh, List.map_singleton,
    if_pos (by simpa using hc)]
  exact find?_append_singleton l (g c) p hp

/-- **C9**: for an upload whose extraction returns text `t`,
`processFileUpload` fails with the input-class "content too short" error
exactly when `t` trims to fewer than 100 characters; in that case the
created record is marked FAILED with no extracted text, and any subsequent
`generateQuiz` from that record fails before any LLM call.  When the
trimmed text reaches 100 characters the upload succeeds and the record is
COMPLETED with the text stored. -/
theorem extraction_too_short_iff (db : DB) (newId userId : String)
    (file : UploadedFile) (t : String) (ft : String)
    (hmt : getFileType file.mimetype = some ft)
    (hfresh : ∀ f ∈ db.fileUploads, f.id ≠ newId) :
    ((jsTrim t).length < 100 →
      (processFileUpload db newId userId file (Except.ok t)).1
          = Except.error (Err.appError 400 tooShortMsg)
      ∧ (∃ rec, (processFileUpload db newId userId file
            (Except.ok t)).2.fileUploads.find? (fun f => f.id == newId) = some rec
          ∧ rec.status = UploadStatus.FAILED ∧ rec.extractedText = none
          ∧ rec.userId = userId)
      ∧ (∀ llm nid2 qc t2 fn2,
          (∃ e, (generateQuiz (processFileUpload db newId userId file
                (Except.ok t)).2 llm nid2 userId newId qc t2 fn2).1
              = Except.error e)
          ∧ (generateQuiz (processFileUpload db newId userId file
                (Except.ok t)).2 llm nid2 userId newId qc t2 fn2).2.2 = []))
    ∧ (¬ (jsTrim t).length < 100 →
      (processFileUpload db newId userId file (Except.ok t)).1
          = Except.ok (newId, t)
      ∧ (∃ rec, (processFileUpload db newId userId file
            (Except.ok t)).2.fileUploads.find? (fun f => f.id == newId) = some rec
          ∧ rec.status = UploadStatus.COMPLETED
          ∧ rec.extractedText = some t)) := by
  unfold processFileUpload
  rw [hmt]
  dsimp only
  constructor
  · intro hshort
    rw [if_pos (Or.inr hshort)]
    refine ⟨rfl, ?_, ?_⟩
    · dsimp only
      rw [find?_fresh_update db.fileUploads _ newId _ _ hfresh rfl
        (fun f hf => by simpa using hfresh f hf)]
      rw [if_pos (by simp)]
      exact ⟨_, rfl, rfl, rfl, rfl⟩
    · intro llm nid2 qc t2 fn2
      unfold generateQuiz
      dsimp only
      cases hu : db.users.find? (fun x => x.id == userId) with
      | none => exact ⟨⟨_, rfl⟩, rfl⟩
      | some u =>
        dsimp only
        rw [find?_fresh_update db.fileUploads _ newId _ _ hfresh rfl
          (fun f hf => by simp [hfresh f hf])]
        rw [if_pos (by simp)]
        exact ⟨⟨_, rfl⟩, rfl⟩
  · intro hlong
    have hcond : ¬ (t = "" ∨ (jsTrim t).length < 100) := by
      rintro (rfl | h)
      · exact hlong (by decide)
      · exact hlong h
    rw [if_neg hcond]
    refine ⟨rfl, ?_⟩
    dsimp only
    rw [find?_fresh_update db.fileUploads _ newId _ _ hfresh rfl
      (fun f hf => by simpa using hfresh f hf)]
    rw [if_pos (by simp)]
    exact ⟨_, rfl, rfl, rfl⟩

/-- **C9** witness: the theorem applied to a concrete too-short text
upload. -/
theorem extraction_too_short_iff_witness :
    (jsTrim "short text").length < 100
    ∧ (processFileUpload exDb "fu9" "u1" exUpload (Except.ok "short text")).1
        = Except.error (Err.appError 400 tooShortMsg) := by
  have h := extraction_too_short_iff exDb "fu9" "u1" exUpload "short text" "TXT"
    (by decide) (by decide)
  exact ⟨by decide, (h.1 (by decide)).1⟩

theorem singleCalls_llmBulk (c : Int) (l : List Event) :
    singleCalls (Event.llmBulk c :: l) = singleCalls l := rfl

theorem singleCalls_llmSingle (a : List String) (o : Option QuizQuestion)
    (l : List Event) :
    singleCalls (Event.llmSingle a o :: l) = (a, o) :: singleCalls l := rfl

theorem acceptedTexts_cons_some (a : List String) (q : QuizQuestion)
    (l : List (List String × Option QuizQuestion)) :
    acceptedTexts ((a, some q) :: l) = q.question :: acceptedTexts l := rfl

theorem acceptedTexts_cons_none (a : List String)
    (l : List (List String × Option QuizQuestion)) :
    acceptedTexts ((a, none) :: l) = acceptedTexts l := rfl

theorem backfill_calls_length (llm : LLM) (ex0 : List String) :
    ∀ rem i add, (singleCalls (backfillLoop llm ex0 i rem add).2).length = rem := by
  intro rem
  induction rem with
  | zero => intro i add; rfl
  | succ r ih =>
    intro i add
    unfold backfillLoop
    dsimp only
    cases h : validateSingle (llm.single i) with
    | ok q =>
      dsimp only
      rw [singleCalls_llmSingle, List.length_cons, ih (i + 1) (add ++ [q])]
    | error e =>
      dsimp only
      rw [singleCalls_llmSingle, List.length_cons, ih (i + 1) add]

theorem backfill_calls_avoid (llm : LLM) (ex0 : List String) :
    ∀ rem i add j call,
      (singleCalls (backfillLoop llm ex0 i rem add).2)[j]? = some call →
      call.1 = ex0 ++ add.map (fun q => q.question)
        ++ acceptedTexts ((singleCalls (backfillLoop llm ex0 i rem add).2).take j) := by
  intro rem
  induction rem with
  | zero =>
    intro i add j call hcall
    cases hcall
  | succ r ih =>
    intro i add j call hcall
    unfold backfillLoop at hcall ⊢
    dsimp only at hcall ⊢
    cases h : validateSingle (llm.single i) with
    | ok q =>
      rw [h] at hcall
      dsimp only at hcall
      rw [singleCalls_llmSingle] at hcall
      rw [singleCalls_llmSingle]
      cases j with
      | zero =>
        rw [List.getElem?_cons_zero] at hcall
        injection hcall with hcall
        subst hcall
        rw [List.take_zero]
        rw [show acceptedTexts [] = [] from rfl, List.append_nil]
      | succ j' =>
        rw [List.getElem?_cons_succ] at hcall
        have := ih (i + 1) (add ++ [q]) j' call hcall
        rw [List.take_cons (Nat.succ_pos j'), acceptedTexts_cons_some]
        rw [this, List.map_append, List.map_singleton]
        simp only [List.append_assoc, List.singleton_append, Nat.add_sub_cancel, Nat.succ_sub_one]
    | error e =>
      rw [h] at hcall
      dsimp only at hcall
      rw [singleCalls_llmSingle] at hcall
      rw [singleCalls_llmSingle]
      cases j with
      | zero =>
        rw [List.getElem?_cons_zero] at hcall
        injection hcall with hcall
        subst hcall
        rw [List.take_zero]
        rw [show acceptedTexts [] = [] from rfl, List.append_nil]
      | succ j' =>
        rw [List.getElem?_cons_succ] at hcall
        have := ih (i + 1) add j' call hcall
        rw [List.take_cons (Nat.succ_pos j'), acceptedTexts_cons_none]
        simpa only [Nat.add_sub_cancel, Nat.succ_sub_one] using this

theorem backfill_all_ok_length (llm : LLM) (ex0 : List String) :
    ∀ rem i add,
      (∀ k, k < rem → ∃ q, validateSingle (llm.single (i + k)) = Except.ok q) →
      (backfillLoop llm ex0 i rem add).1.length = add.length + rem := by
  intro rem
  induction rem with
  | zero => intro i add _; rfl
  | succ r ih =>
    intro i add hok
    unfold backfillLoop
    dsimp only
    rcases hok 0 (Nat.succ_pos r) with ⟨q, hq⟩
    rw [Nat.add_zero] at hq
    rw [hq]
    dsimp only
    have := ih (i + 1) (add ++ [q]) (fun k hk => by
      rcases hok (k + 1) (Nat.succ_lt_succ hk) with ⟨q', hq'⟩
      exact ⟨q', by rw [show i + 1 + k = i + (k + 1) by omega]; exact hq'⟩)
    rw [this, List.length_append]
    simp only [List.length_singleton]
    omega

theorem backfill_result_length (llm : LLM) (ex0 : List String) :
    ∀ rem i add, (backfillLoop llm ex0 i rem add).1.length
      = add.length
        + (acceptedTexts (singleCalls (backfillLoop llm ex0 i rem add).2)).length := by
  intro rem
  induction rem with
  | zero => intro i add; rfl
  | succ r ih =>
    intro i add
    unfold backfillLoop
    dsimp only
    cases h : validateSingle (llm.single i) with
    | ok q =>
      dsimp only
      rw [singleCalls_llmSingle, acceptedTexts_cons_some, List.length_cons,
        ih (i + 1) (add ++ [q]), List.length_append]
      simp only [List.length_singleton]
      omega
    | error e =>
      dsimp only
      rw [singleCalls_llmSingle, acceptedTexts_cons_none, ih (i + 1) add]


theorem backfill_length_le (llm : LLM) (ex0 : List String) :
    ∀ rem i add, (backfillLoop llm ex0 i rem add).1.length ≤ add.length + rem := by
  intro rem
  induction rem with
  | zero => intro i add; exact Nat.le_of_eq rfl
  | succ r ih =>
    intro i add
    unfold backfillLoop
    dsimp only
    cases h : validateSingle (llm.single i) with
    | ok q =>
      dsimp only
      have := ih (i + 1) (add ++ [q])
      rw [List.length_append] at this
      simp only [List.length_singleton] at this
      omega
    | error e =>
      dsimp only
      have := ih (i + 1) add
      omega

theorem backfill_fail_length_lt (llm : LLM) (ex0 : List String) :
    ∀ rem i add,
      (∃ k, k < rem ∧ ∀ q, validateSingle (llm.single (i + k)) ≠ Except.ok q) →
      (backfillLoop llm ex0 i rem add).1.length < add.length + rem := by
  intro rem
  induction rem with
  | zero =>
    intro i add hex
    obtain ⟨k, hk, _⟩ := hex
    exact absurd hk (Nat.not_lt_zero k)
  | succ r ih =>
    intro i add hex
    obtain ⟨k, hk, hfail⟩ := hex
    unfold backfillLoop
    dsimp only
    cases h : validateSingle (llm.single i) with
    | ok q =>
      dsimp only
      cases k with
      | zero =>
        exact absurd (by rw [Nat.add_zero]; exact h) (hfail q)
      | succ k2 =>
        have := ih (i + 1) (add ++ [q]) ⟨k2, by omega, fun q2 hq2 =>
          hfail q2 (by rw [show i + (k2 + 1) = i + 1 + k2 by omega]; exact hq2)⟩
        rw [List.length_append] at this
        simp only [List.length_singleton] at this
        omega
    | error e =>
      dsimp only
      have := backfill_length_le llm ex0 r (i + 1) add
      omega

/-- **C3**: when the bulk response yields `k` valid questions with
`0 < k < n`, `generateQuizQuestions` issues exactly `n - k` backfill calls;
each call's avoid-list is precisely the texts of the initially accepted
questions plus those accepted by the earlier backfill calls; if every
backfill validates, the result is a list of exactly `n` questions; any
error the operation returns is the explicit shortfall error naming the
achieved count (initial plus accepted backfills) versus the requested
count; and if any backfill call fails, the operation DOES fail with
exactly that error — it never returns a short (or padded) list. -/
theorem shortfall_backfill_exact (llm : LLM) (text title : String) (n : Nat)
    (raws : List RawQuestion) (validated : List QuizQuestion)
    (hbulk : llm.bulkContent = some raws)
    (hval : validateQuestions raws = Except.ok validated)
    (hk0 : 0 < validated.length) (hkn : validated.length < n) (h30 : n ≤ 30) :
    (singleCalls (generateQuizQuestions llm text (n : Int) title).2).length
        = n - validated.length
    ∧ (∀ j call,
        (singleCalls (generateQuizQuestions llm text (n : Int) title).2)[j]?
            = some call →
        call.1 = validated.map (fun q => q.question)
          ++ acceptedTexts ((singleCalls
              (generateQuizQuestions llm text (n : Int) title).2).take j))
    ∧ ((∀ k, k < n - validated.length →
          ∃ q, validateSingle (llm.single k) = Except.ok q) →
        ∃ qs, (generateQuizQuestions llm text (n : Int) title).1 = Except.ok qs
          ∧ qs.length = n)
    ∧ (∀ e, (generateQuizQuestions llm text (n : Int) title).1 = Except.error e →
        e = Err.appError 500 (shortfallMsg (validated.length +
          (acceptedTexts (singleCalls
            (generateQuizQuestions llm text (n : Int) title).2)).length)
          (n : Int)))
    ∧ ((∃ k, k < n - validated.length ∧
          ∀ q, validateSingle (llm.single k) ≠ Except.ok q) →
        (generateQuizQuestions llm text (n : Int) title).1
          = Except.error (Err.appError 500 (shortfallMsg (validated.length +
              (acceptedTexts (singleCalls
                (generateQuizQuestions llm text (n : Int) title).2)).length)
              (n : Int)))) := by
  have h1 : ¬ ((n : Int) < 1) := by omega
  have h2 : ¬ ((n : Int) > 30) := by
    simp only [gt_iff_lt, not_lt]
    omega
  have htoNat : ((n : Int)).toNat = n := rfl
  have hgen2 : (generateQuizQuestions llm text (n : Int) title).2
      = Event.llmBulk (n : Int) :: (backfillLoop llm
          (validated.map (fun q => q.question)) 0 (n - validated.length) []).2 := by
    unfold generateQuizQuestions
    rw [if_neg h1, if_neg h2, hbulk]
    dsimp only
    rw [hval]
    dsimp only
    rw [htoNat, if_pos hkn]
    split <;> rfl
  refine ⟨?_, ?_, ?_, ?_, ?_⟩
  · rw [hgen2, singleCalls_llmBulk, backfill_calls_length]
  · intro j call hcall
    rw [hgen2, singleCalls_llmBulk] at hcall ⊢
    have hav := backfill_calls_avoid llm (validated.map (fun q => q.question))
      (n - validated.length) 0 [] j call hcall
    simpa using hav
  · intro hok
    have hlen : (validated ++ (backfillLoop llm
        (validated.map (fun q => q.question)) 0 (n - validated.length) []).1).length
        = n := by
      rw [List.length_append, backfill_all_ok_length llm _ _ 0 []
        (fun k hk => by simpa using hok k hk)]
      simp only [List.length_nil, Nat.zero_add]
      omega
    refine ⟨validated ++ (backfillLoop llm
        (validated.map (fun q => q.question)) 0 (n - validated.length) []).1, ?_, hlen⟩
    unfold generateQuizQuestions
    rw [if_neg h1, if_neg h2, hbulk]
    dsimp only
    rw [hval]
    dsimp only
    rw [htoNat, if_pos hkn]
    rw [if_neg (by rw [hlen]; exact lt_irrefl n)]
    rw [if_neg (by rw [hlen]; exact lt_irrefl n)]
  · intro e he
    unfold generateQuizQuestions at he
    rw [if_neg h1, if_neg h2, hbulk] at he
    dsimp only at he
    rw [hval] at he
    dsimp only at he
    rw [htoNat, if_pos hkn] at he
    by_cases hfin : (validated ++ (backfillLoop llm
        (validated.map (fun q => q.question)) 0 (n - validated.length) []).1).length < n
    · rw [if_pos hfin] at he
      dsimp only at he
      injection he with he
      rw [← he]
      have hres := backfill_result_length llm
        (validated.map (fun q => q.question)) (n - validated.length) 0 []
      rw [hgen2, singleCalls_llmBulk]
      rw [List.length_append, hres]
      simp only [List.length_nil, Nat.zero_add]
    · rw [if_neg hfin] at he
      cases he
  · intro hex
    obtain ⟨k, hk, hfail⟩ := hex
    have hlt : (backfillLoop llm (validated.map (fun q => q.question)) 0
        (n - validated.length) []).1.length < n - validated.length := by
      have := backfill_fail_length_lt llm (validated.map (fun q => q.question))
        (n - validated.length) 0 [] ⟨k, hk, fun q hq => hfail q (by simpa using hq)⟩
      simpa using this
    have hfin : (validated ++ (backfillLoop llm
        (validated.map (fun q => q.question)) 0
        (n - validated.length) []).1).length < n := by
      rw [List.length_append]
      omega
    have h1r : (generateQuizQuestions llm text (n : Int) title).1
        = Except.error (Err.appError 500 (shortfallMsg (validated ++
            (backfillLoop llm (validated.map (fun q => q.question)) 0
              (n - validated.length) []).1).length (n : Int))) := by
      unfold generateQuizQuestions
      rw [if_neg h1, if_neg h2, hbulk]
      dsimp only
      rw [hval]
      dsimp only
      rw [htoNat, if_pos hkn]
      rw [if_pos hfin]
    rw [h1r]
    have hres := backfill_result_length llm
      (validated.map (fun q => q.question)) (n - validated.length) 0 []
    rw [hgen2, singleCalls_llmBulk, List.length_append, hres]
    simp only [List.length_nil, Nat.zero_add]

/-- **C3** witness: the theorem applied at 2 requested questions with a bulk
response of 1 valid question, once with a succeeding backfill (final list of
length 2) and once with a failing backfill (the operation fails with the
shortfall error naming 1 of 2). -/
theorem shortfall_backfill_exact_witness :
    (singleCalls (generateQuizQuestions exLlmShort "text" (2 : Int) "T").2).length = 1
    ∧ (∃ qs, (generateQuizQuestions exLlmShort "text" (2 : Int) "T").1 = Except.ok qs
        ∧ qs.length = 2)
    ∧ (generateQuizQuestions
          { bulkContent := some [exGoodRaw], single := fun _ => none }
          "text" (2 : Int) "T").1
        = Except.error (Err.appError 500 (shortfallMsg 1 (2 : Int))) := by
  have h := shortfall_backfill_exact exLlmShort "text" "T" 2 [exGoodRaw] [exGoodQ]
    rfl (by rfl) (by decide) (by decide) (by decide)
  have hfailthm := shortfall_backfill_exact
    { bulkContent := some [exGoodRaw], single := fun _ => none } "text" "T" 2
    [exGoodRaw] [exGoodQ] rfl (by rfl) (by decide) (by decide) (by decide)
  refine ⟨h.1, h.2.2.1 (fun k hk =>
    ⟨{ question := "What is 3+3?", options := ["4", "5", "6", "7"]
       correctAnswer := "6", explanation := none }, by rfl⟩), ?_⟩
  have hf := hfailthm.2.2.2.2 ⟨0, by decide, fun q hq => by cases hq⟩
  exact hf

theorem ownedDelta_refl (l : List QuizRec) (uid : String) : ownedDelta l l uid :=
  ⟨fun q hq => Or.inl hq, fun q hq => Or.inl hq⟩

theorem ownedDelta_append (l : List QuizRec) (c : QuizRec) (uid : String)
    (hc : c.userId = uid) : ownedDelta l (l ++ [c]) uid := by
  constructor
  · intro q hq
    rcases List.mem_append.mp hq with h | h
    · exact Or.inl h
    · rcases List.mem_singleton.mp h with rfl
      exact Or.inr hc
  · intro q hq
    exact Or.inl (List.mem_append_left _ hq)

theorem ownedDelta_mapUpdate (l : List QuizRec) (rid uid : String)
    (quiz : QuizRec) (g : QuizRec → QuizRec)
    (hgid : ∀ q, (g q).id = q.id) (hguid : ∀ q, (g q).userId = q.userId)
    (hfind : l.find? (fun q => q.id == rid && q.userId == uid) = some quiz)
    (hnodup : (l.map (fun q => q.id)).Nodup) :
    ownedDelta l (l.map (fun q => if q.id == rid then g q else q)) uid := by
  have hmem := List.mem_of_find?_eq_some hfind
  have hprop := List.find?_some hfind
  simp only [Bool.and_eq_true, beq_iff_eq] at hprop
  obtain ⟨hqid, hquid⟩ := hprop
  constructor
  · intro q' hq'
    rcases List.mem_map.mp hq' with ⟨q0, hq0, rfl⟩
    by_cases hid : (q0.id == rid) = true
    · rw [if_pos hid]
      right
      rw [hguid]
      have : q0 = quiz := nodup_map_mem_inj hnodup hq0 hmem
        (by rw [beq_iff_eq.mp hid, hqid])
      rw [this, hquid]
    · rw [if_neg hid]
      exact Or.inl hq0
  · intro q hqmem
    by_cases hid : (q.id == rid) = true
    · right
      have : q = quiz := nodup_map_mem_inj hnodup hqmem hmem
        (by rw [beq_iff_eq.mp hid, hqid])
      rw [this, hquid]
    · left
      exact List.mem_map.mpr ⟨q, hqmem, by rw [if_neg hid]⟩

theorem ownedDelta_filter (l : List QuizRec) (rid uid : String) (quiz : QuizRec)
    (hfind : l.find? (fun q => q.id == rid && q.userId == uid) = some quiz)
    (hnodup : (l.map (fun q => q.id)).Nodup) :
    ownedDelta l (l.filter (fun q => !(q.id == rid))) uid := by
  have hmem := List.mem_of_find?_eq_some hfind
  have hprop := List.find?_some hfind
  simp only [Bool.and_eq_true, beq_iff_eq] at hprop
  obtain ⟨hqid, hquid⟩ := hprop
  constructor
  · intro q hq
    exact Or.inl (List.mem_of_mem_filter hq)
  · intro q hqmem
    by_cases hid : (q.id == rid) = true
    · right
      have : q = quiz := nodup_map_mem_inj hnodup hqmem hmem
        (by rw [beq_iff_eq.mp hid, hqid])
      rw [this, hquid]
    · left
      exact List.mem_filter.mpr ⟨hqmem, by simp [hid]⟩

/-- **C10**: ownership scoping.  For a record id owned by a different user
(or absent), `getQuizById`, `deleteQuiz`, `updateQuizQuestions`,
`generateQuiz` and the single-question service each fail with a 404
not-found error, leave the store untouched and perform no file operation;
and (for stores with unique quiz ids) every store modification any of these
operations makes touches only quiz records owned by the caller, never file
uploads of others (file-upload records are not modified at all). -/
theorem ownership_scoping (db : DB) (llm : LLM) (nid rid uid : String)
    (qc : Option Int) (title filename : Option String)
    (qs : List QuizQuestion) (exq : List String)
    (hq : ∀ q ∈ db.quizzes, q.id = rid → q.userId ≠ uid)
    (hf : ∀ f ∈ db.fileUploads, f.id = rid → f.userId ≠ uid)
    (hnodup : (db.quizzes.map (fun q => q.id)).Nodup) :
    getQuizById db rid uid = Except.error (Err.appError 404 "Quiz not found")
    ∧ deleteQuiz db rid uid
        = (Except.error (Err.appError 404 "Quiz not found"), db, [])
    ∧ updateQuizQuestions db rid uid qs filename
        = (Except.error (Err.appError 404 "Quiz not found"), db, [])
    ∧ (∃ m, (generateQuiz db llm nid uid rid qc title filename)
        = (Except.error (Err.appError 404 m), db, []))
    ∧ generateSingleQuestionService db llm rid uid exq
        = (Except.error (Err.appError 404 "File not found"), db, [])
    ∧ (∀ rid2 qs2 fn2, ownedDelta db.quizzes
          (updateQuizQuestions db rid2 uid qs2 fn2).2.1.quizzes uid
        ∧ (updateQuizQuestions db rid2 uid qs2 fn2).2.1.fileUploads
          = db.fileUploads)
    ∧ (∀ rid2, ownedDelta db.quizzes (deleteQuiz db rid2 uid).2.1.quizzes uid
        ∧ (deleteQuiz db rid2 uid).2.1.fileUploads = db.fileUploads)
    ∧ (∀ nid2 fid2 qc2 t2 fn2, ownedDelta db.quizzes
          (generateQuiz db llm nid2 uid fid2 qc2 t2 fn2).2.1.quizzes uid
        ∧ (generateQuiz db llm nid2 uid fid2 qc2 t2 fn2).2.1.fileUploads
          = db.fileUploads) := by
  have hqnone : db.quizzes.find? (fun q => q.id == rid && q.userId == uid) = none := by
    rw [List.find?_eq_none]
    intro x hx
    simp only [Bool.and_eq_true, beq_iff_eq, not_and]
    intro hid huid
    exact hq x hx hid huid
  have hfnone : db.fileUploads.find?
      (fun f => f.id == rid && f.userId == uid) = none := by
    rw [List.find?_eq_none]
    intro x hx
    simp only [Bool.and_eq_true, beq_iff_eq, not_and]
    intro hid huid
    exact hf x hx hid huid
  refine ⟨?_, ?_, ?_, ?_, ?_, ?_, ?_, ?_⟩
  · unfold getQuizById
    rw [hqnone]
  · unfold deleteQuiz
    rw [hqnone]
  · unfold updateQuizQuestions
    rw [hqnone]
  · unfold generateQuiz
    cases hu : db.users.find? (fun u => u.id == uid) with
    | none => exact ⟨"User not found", rfl⟩
    | some u =>
      dsimp only
      rw [hfnone]
      exact ⟨"File not found", rfl⟩
  · unfold generateSingleQuestionService
    rw [hfnone]
  · intro rid2 qs2 fn2
    unfold updateQuizQuestions
    cases hq2 : db.quizzes.find? (fun q => q.id == rid2 && q.userId == uid) with
    | none => exact ⟨ownedDelta_refl _ _, rfl⟩
    | some quiz =>
      dsimp only
      cases hu2 : db.users.find? (fun u => u.id == uid) with
      | none => exact ⟨ownedDelta_refl _ _, rfl⟩
      | some user =>
        dsimp only
        cases hpl2 : PLAN_LIMITS_BY_NAME user.plan with
        | none => exact ⟨ownedDelta_refl _ _, rfl⟩
        | some pl =>
          dsimp only
          split
          · exact ⟨ownedDelta_refl _ _, rfl⟩
          · refine ⟨?_, rfl⟩
            exact ownedDelta_mapUpdate db.quizzes rid2 uid quiz _
              (fun q => rfl) (fun q => rfl) hq2 hnodup
  · intro rid2
    unfold deleteQuiz
    cases hq2 : db.quizzes.find? (fun q => q.id == rid2 && q.userId == uid) with
    | none => exact ⟨ownedDelta_refl _ _, rfl⟩
    | some quiz =>
      exact ⟨ownedDelta_filter db.quizzes rid2 uid quiz hq2 hnodup, rfl⟩
  · intro nid2 fid2 qc2 t2 fn2
    unfold generateQuiz
    cases hu3 : db.users.find? (fun u => u.id == uid) with
    | none => exact ⟨ownedDelta_refl _ _, rfl⟩
    | some u =>
      dsimp only
      cases hfu3 : db.fileUploads.find?
          (fun f => f.id == fid2 && f.userId == uid) with
      | none => exact ⟨ownedDelta_refl _ _, rfl⟩
      | some fu =>
        dsimp only
        cases hext : fu.extractedText with
        | none => exact ⟨ownedDelta_refl _ _, rfl⟩
        | some t =>
          dsimp only
          by_cases ht2 : t = ""
          · rw [if_pos ht2]
            exact ⟨ownedDelta_refl _ _, rfl⟩
          · rw [if_neg ht2]
            cases hpl3 : PLAN_LIMITS_BY_NAME u.plan with
            | none => exact ⟨ownedDelta_refl _ _, rfl⟩
            | some pl =>
              dsimp only
              split
              · exact ⟨ownedDelta_refl _ _, rfl⟩
              · split
                · exact ⟨ownedDelta_refl _ _, rfl⟩
                · exact ⟨ownedDelta_append _ _ _ rfl, rfl⟩

/-- **C10** witness: the theorem applied to caller `u9` targeting the quiz
`qz1` owned by `u1`. -/
theorem ownership_scoping_witness :
    getQuizById exDbQuiz "qz1" "u9"
      = Except.error (Err.appError 404 "Quiz not found")
    ∧ deleteQuiz exDbQuiz "qz1" "u9"
      = (Except.error (Err.appError 404 "Quiz not found"), exDbQuiz, [])
    ∧ ownedDelta exDbQuiz.quizzes
        (updateQuizQuestions exDbQuiz "qz1" "u9" [exGoodQ] none).2.1.quizzes
        "u9" := by
  have h := ownership_scoping exDbQuiz exLlmShort "q9" "qz1" "u9" none none none
    [exGoodQ] [] (by decide) (by decide) (by decide)
  exact ⟨h.1, h.2.1, (h.2.2.2.2.2.1 "qz1" [exGoodQ] none).1⟩
